import Mathlib

/-!
Verification of the SLM-Lab experience replay memory
(`slm_lab/agent/memory/replay.py`), shallowly embedded in Lean 4.

The `Replay` class is a fixed-capacity circular buffer of transitions
(state, action, reward, next_state, done) with head-pointer insertion,
uniform batch sampling, implicit next-state reconstruction and an optional
"combined experience replay" (CER) bias.  State payloads are modelled as
rationals; numpy's `astype(np.float16)` is modelled by an exact IEEE
binary16 rounding on the rationals, scalars only (array shapes play no
role in any property considered here).  Randomness is modelled by an
oracle list of raw natural-number draws.
-/

/-- Fuel-driven floor of the base-2 logarithm of a natural number
(structural recursion so that it evaluates inside the kernel). -/
def natLog2F : ℕ → ℕ → ℕ
  | 0, _ => 0
  | fuel + 1, n => if 2 ≤ n then natLog2F fuel (n / 2) + 1 else 0

/-- Floor of the base-2 logarithm of a natural number (`natLog2 0 = 0`). -/
def natLog2 (n : ℕ) : ℕ := natLog2F n n

/-- Fuel-driven ceiling of the base-2 logarithm of a natural number. -/
def natClog2F : ℕ → ℕ → ℕ
  | 0, _ => 0
  | fuel + 1, n => if n ≤ 1 then 0 else natClog2F fuel ((n + 1) / 2) + 1

/-- Ceiling of the base-2 logarithm of a natural number. -/
def natClog2 (n : ℕ) : ℕ := natClog2F n n

/-- Round the positive fraction `n / d` to the nearest natural number, ties
to even (IEEE roundTiesToEven). -/
def rnEvenNat (n d : ℕ) : ℕ :=
  let f := n / d
  let r := n % d
  if 2 * r < d then f
  else if d < 2 * r then f + 1
  else if f % 2 = 0 then f else f + 1

/-- Floor of the base-2 logarithm of the positive fraction `n / d`. -/
def floorLog2 (n d : ℕ) : ℤ :=
  if d ≤ n then (natLog2 (n / d) : ℤ)
  else -(natClog2 ((d + n - 1) / n) : ℤ)

/-- A scalar held in 16-bit floating point: a signed infinity (overflow) or a
finite rational on the binary16 grid. -/
inductive Float16 where
  | inf : Bool → Float16
  | fin : ℚ → Float16
deriving DecidableEq

/-- Round the magnitude `n / d` (positive) onto the IEEE binary16 grid, round
to nearest with ties to even, and attach the sign.  The unit in the last
place is `2 ^ (e - 10)` for exponent `e = max (floorLog2 n d) (-14)`, which
covers both normal numbers and subnormals (spacing `2 ^ (-24)`); magnitudes
that round past the largest finite value 65504 overflow to infinity.  All
arithmetic is on the integer numerator/denominator so that the definition
evaluates inside the kernel. -/
def roundF16Mag (sign : Bool) (n d : ℕ) : Float16 :=
  let e : ℤ := max (floorLog2 n d) (-14)
  let up : ℕ := (10 - e).toNat
  let down : ℕ := (e - 10).toNat
  let m := rnEvenNat (n * 2 ^ up) (d * 2 ^ down)
  if 65504 * 2 ^ up < m * 2 ^ down then Float16.inf sign
  else
    Float16.fin
      (mkRat (if sign then -(m * 2 ^ down : ℤ) else (m * 2 ^ down : ℤ)) (2 ^ up))

/-- Model of numpy `astype(np.float16)` on a scalar: round to the nearest
binary16 value, overflowing to infinity past the largest finite value 65504. -/
def astypeFloat16 (q : ℚ) : Float16 :=
  if q.num = 0 then .fin 0
  else if 0 < q.num then roundF16Mag false q.num.toNat q.den
  else roundF16Mag true q.num.natAbs q.den

/-- A scalar reward: a rational number or the IEEE NaN marker (the
episode-start sentinel recognised by `Replay.update`). -/
inductive RVal where
  | nan : RVal
  | num : ℚ → RVal
deriving DecidableEq

/-- Model of `np.isnan` on a reward scalar. -/
def RVal.isnan : RVal → Bool
  | .nan => true
  | .num _ => false

/-- Model of `np.sign` on a reward scalar (the comparisons are on the
numerator so that the definition evaluates inside the kernel). -/
def npSign : RVal → RVal
  | .nan => .nan
  | .num q => .num (if 0 < q.num then 1 else if q.num < 0 then mkRat (-1) 1 else 0)

/-- State of a `Replay` memory instance.  The five parallel storage lists
have one `Option` slot per buffer position (`none` is the `None` sentinel
that `reset` writes); `head` is an integer because it is initialised to
`-1`; `batch_idxs` records the indices drawn by the most recent `sample`;
`state_buffer` is the StateTransformer's sliding window
(a `deque(maxlen=0)` in the plain `Replay`). -/
structure Replay where
  max_size : ℕ
  batch_size : ℕ
  use_cer : Bool
  states : List (Option Float16)
  actions : List (Option ℚ)
  rewards : List (Option RVal)
  next_states : List (Option Float16)
  dones : List (Option Bool)
  latest_next_state : Option Float16
  size : ℕ
  head : ℤ
  seen_size : ℕ
  batch_idxs : Option (List ℕ)
  state_buffer : List ℚ
deriving DecidableEq

/-- One transition as passed to `add_experience`. -/
structure Experience where
  state : ℚ
  action : ℚ
  reward : RVal
  next_state : ℚ
  done : Bool
deriving DecidableEq

/-- A sampled batch, keyed exactly like the dict built by `Replay.sample`. -/
structure Batch where
  states : List (Option Float16)
  actions : List (Option ℚ)
  rewards : List (Option RVal)
  next_states : List (Option Float16)
  dones : List (Option Bool)
deriving DecidableEq

/-- `Replay.reset`: re-initializes the memory arrays (one `[None] * max_size`
list per data key), `latest_next_state`, `size` and the `head` pointer, and
clears the state buffer.  `seen_size` is not touched. -/
def Replay.reset (m : Replay) : Replay :=
  { m with
    states := List.replicate m.max_size none
    actions := List.replicate m.max_size none
    rewards := List.replicate m.max_size none
    next_states := List.replicate m.max_size none
    dones := List.replicate m.max_size none
    latest_next_state := none
    size := 0
    head := -1
    state_buffer := [] }

/-- `Replay.__init__`: stores the memory spec attributes, initialises the
counters, then calls `reset`. -/
def mkReplay (max_size batch_size : ℕ) (use_cer : Bool) : Replay :=
  Replay.reset
    { max_size := max_size
      batch_size := batch_size
      use_cer := use_cer
      states := []
      actions := []
      rewards := []
      next_states := []
      dones := []
      latest_next_state := none
      size := 0
      head := -1
      seen_size := 0
      batch_idxs := none
      state_buffer := [] }

/-- Modelled from the spec: the base `Memory.preprocess_state` used by the
plain `Replay` (the identity StateTransformer, base class not under `src/`)
"returns `raw_state` unchanged; no window". -/
def Replay.preprocess_state (_ : Replay) (state : ℚ) : ℚ := state

/-- Modelled from the spec: the base-class `Memory.epi_reset` reached from
`Replay.epi_reset` (base class not under `src/`) "resets its
StateTransformer's sliding window using `next_state` as the first
observation, and must NOT insert a transition"; the ring-buffer fields are
untouched.  `Replay.epi_reset` itself (replay.py lines 71-73) passes the
state through `preprocess_state(state, append=False)` first. -/
def Replay.epi_reset (m : Replay) (state : ℚ) : Replay :=
  { m with state_buffer := [m.preprocess_state state] }

/-- `Replay.add_experience`: advance the head pointer with wrap-around,
overwrite the slot at the new head (states are downcast with
`astype(np.float16)`, as is `latest_next_state`), grow `size` while below
capacity, and count the experience in `seen_size`. -/
def Replay.add_experience (m : Replay) (state : ℚ) (action : ℚ) (reward : RVal)
    (next_state : ℚ) (done : Bool) : Replay :=
  let head := (m.head + 1) % (m.max_size : ℤ)
  { m with
    head := head
    states := m.states.set head.toNat (some (astypeFloat16 state))
    actions := m.actions.set head.toNat (some action)
    rewards := m.rewards.set head.toNat (some reward)
    latest_next_state := some (astypeFloat16 next_state)
    dones := m.dones.set head.toNat (some done)
    size := if m.size < m.max_size then m.size + 1 else m.size
    seen_size := m.seen_size + 1 }

/-- `Replay.update`: episode-start sentinel handling.  `is_venv` is the
environment flag `self.body.env.is_venv` consulted by the source. -/
def Replay.update (m : Replay) (is_venv : Bool) (state : ℚ) (action : ℚ)
    (reward : RVal) (next_state : ℚ) (done : Bool) : Replay :=
  if !is_venv && reward.isnan then
    m.epi_reset next_state
  else
    m.add_experience (m.preprocess_state state) action reward
      (m.preprocess_state next_state) done

/-- Modelled from the spec: `util.cond_multiget` (`slm_lab.lib.util`, not
under `src/`) gathers the elements of a storage list at the given index
positions — "simply index the storage arrays at the chosen positions". -/
def cond_multiget {α : Type} (l : List (Option α)) (idxs : List ℕ) :
    List (Option α) :=
  idxs.map (fun i => l.getD i none)

/-- `Replay._sample_next_states`: indices for next states are the chosen
indices plus one; any position whose incremented index equals `size` is
diverted to the placeholder index 0 before the gather and its gathered value
is then overwritten with `latest_next_state`.  numpy's vectorized
`argwhere`/scatter pair is rendered elementwise (the `to_replace` branches of
the source are no-ops when no location matches). -/
def Replay.sample_next_states (m : Replay) (batch_idxs : List ℕ) :
    List (Option Float16) :=
  let ns_batch_idxs := batch_idxs.map (fun i => i + 1)
  let safe_idxs := ns_batch_idxs.map (fun i => if i = m.size then 0 else i)
  let gathered := cond_multiget m.states safe_idxs
  (ns_batch_idxs.zip gathered).map
    (fun p => if p.1 = m.size then m.latest_next_state else p.2)

/-- Model of `np.random.randint(n, size=k)`: the random source is an oracle
list of raw draws and each drawn index is a raw draw reduced modulo `n`
(uniform over `[0, n)` whenever the oracle is uniform); numpy raises
`ValueError: low >= high` when `n = 0`. -/
def npRandint (n k : ℕ) (draws : List ℕ) : Except String (List ℕ) :=
  if n = 0 then .error "ValueError: low >= high"
  else .ok ((List.range k).map (fun j => draws.getD j 0 % n))

/-- `Replay.sample_idxs`: draw `batch_size` indices uniformly from
`[0, size)`; with CER, overwrite the last drawn index with the current head
(numpy raises an IndexError on `batch_idxs[-1]` when the batch is empty). -/
def Replay.sample_idxs (m : Replay) (batch_size : ℕ) (draws : List ℕ) :
    Except String (List ℕ) :=
  match npRandint m.size batch_size draws with
  | .error e => .error e
  | .ok batch_idxs =>
    if m.use_cer then
      if batch_idxs.length = 0 then
        .error "IndexError: index -1 is out of bounds"
      else
        .ok (batch_idxs.set (batch_idxs.length - 1) m.head.toNat)
    else .ok batch_idxs

/-- `Replay.sample`: record the drawn indices in `batch_idxs`, then gather
each data key at those indices (`next_states` through the reconstruction in
`_sample_next_states`).  The pair returned is the batch dict together with
the memory object after the call (the source mutates only `batch_idxs`). -/
def Replay.sample (m : Replay) (draws : List ℕ) :
    Except String (Batch × Replay) :=
  match m.sample_idxs m.batch_size draws with
  | .error e => .error e
  | .ok idxs =>
    .ok ({ states := cond_multiget m.states idxs
           actions := cond_multiget m.actions idxs
           rewards := cond_multiget m.rewards idxs
           next_states := m.sample_next_states idxs
           dones := cond_multiget m.dones idxs },
         { m with batch_idxs := some idxs })

/-- `AtariReplay.add_experience`: clip the reward to its sign at insertion
time, then defer to `Replay.add_experience`. -/
def atari_add_experience (m : Replay) (state : ℚ) (action : ℚ) (reward : RVal)
    (next_state : ℚ) (done : Bool) : Replay :=
  m.add_experience state action (npSign reward) next_state done

/-- Fold a sequence of transitions into the memory through
`add_experience`, oldest first. -/
def insertAll (m : Replay) (xs : List Experience) : Replay :=
  xs.foldl
    (fun acc e => acc.add_experience e.state e.action e.reward e.next_state e.done)
    m

/-- The four transitions of the spec's concrete scenario: states `0,1,2,3`,
actions equal to the states, rewards `num k`, next states `10,11,12,13`. -/
def exps4 : List Experience :=
  [ { state := 0, action := 0, reward := .num 0, next_state := 10, done := false }
  , { state := 1, action := 1, reward := .num 1, next_state := 11, done := false }
  , { state := 2, action := 2, reward := .num 2, next_state := 12, done := false }
  , { state := 3, action := 3, reward := .num 3, next_state := 13, done := false } ]

/-- A wrapped full buffer: `max_size = 3`, four inserts, head back at slot 0. -/
def mem4 : Replay := insertAll (mkReplay 3 2 false) exps4

-- sanity examples (concrete evaluation of the embedding)
example : mem4.head = 0 := by decide
example : mem4.size = 3 := by decide
example : mem4.seen_size = 4 := by decide
example : mem4.states =
    [some (Float16.fin 3), some (Float16.fin 1), some (Float16.fin 2)] := by
  decide
example : mem4.latest_next_state = some (Float16.fin 13) := by decide
example : mem4.sample_next_states [0] = [some (Float16.fin 1)] := by decide
example : mem4.sample_next_states [2] = [some (Float16.fin 13)] := by decide
example : astypeFloat16 (mkRat 1 3) = Float16.fin (mkRat 1365 4096) := by decide
example : astypeFloat16 70000 = Float16.inf false := by decide
example : astypeFloat16 (mkRat (-3) 1) = Float16.fin (mkRat (-3) 1) := by decide
example : astypeFloat16 65504 = Float16.fin 65504 := by decide
example : npSign (RVal.num 5) = RVal.num 1 := by decide

deriving instance DecidableEq for Except

/-- An empty memory (no insert yet), used for concrete instantiations. -/
def mem0 : Replay := mkReplay 3 2 false

/-- The CER-enabled counterpart of `mem4`. -/
def memc : Replay := insertAll (mkReplay 3 2 true) exps4

/-- The batch returned by `mem4.sample [5, 1]` (drawn indices `[2, 1]`). -/
def batch4 : Batch :=
  { states := [some (Float16.fin 2), some (Float16.fin 1)]
    actions := [some 2, some 1]
    rewards := [some (RVal.num 2), some (RVal.num 1)]
    next_states := [some (Float16.fin 13), some (Float16.fin 2)]
    dones := [some false, some false] }

/-- The memory object after `mem4.sample [5, 1]`. -/
def mem4' : Replay := { mem4 with batch_idxs := some [2, 1] }

/-- The batch returned by `memc.sample [5, 1]` (drawn indices `[2, 1]`,
with the last index overwritten by the head, giving `[2, 0]`). -/
def batchc : Batch :=
  { states := [some (Float16.fin 2), some (Float16.fin 3)]
    actions := [some 2, some 3]
    rewards := [some (RVal.num 2), some (RVal.num 3)]
    next_states := [some (Float16.fin 13), some (Float16.fin 1)]
    dones := [some false, some false] }

/-- The memory object after `memc.sample [5, 1]`. -/
def memc' : Replay := { memc with batch_idxs := some [2, 0] }

example : mem4.sample [5, 1] = Except.ok (batch4, mem4') := by decide
example : memc.sample [5, 1] = Except.ok (batchc, memc') := by decide

/-! ## Helper lemmas -/

theorem cond_multiget_cons {α : Type} (l : List (Option α)) (i : ℕ) (t : List ℕ) :
    cond_multiget l (i :: t) = l.getD i none :: cond_multiget l t := rfl

theorem cond_multiget_length {α : Type} (l : List (Option α)) (idxs : List ℕ) :
    (cond_multiget l idxs).length = idxs.length := by
  simp [cond_multiget]

theorem cond_multiget_getD {α : Type} (l : List (Option α)) (idxs : List ℕ)
    (j : ℕ) (hj : j < idxs.length) :
    (cond_multiget l idxs).getD j none = l.getD (idxs.getD j 0) none := by
  induction idxs generalizing j with
  | nil => simp at hj
  | cons i t ih =>
    rw [cond_multiget_cons]
    cases j with
    | zero => simp
    | succ j =>
      simp only [List.getD_cons_succ]
      exact ih j (by simpa using hj)

theorem sample_next_states_cons (m : Replay) (i : ℕ) (t : List ℕ) :
    m.sample_next_states (i :: t) =
      (if i + 1 = m.size then m.latest_next_state
       else m.states.getD (i + 1) none) :: m.sample_next_states t := by
  by_cases h : i + 1 = m.size <;>
    simp [Replay.sample_next_states, cond_multiget, h]

theorem sample_next_states_length (m : Replay) (idxs : List ℕ) :
    (m.sample_next_states idxs).length = idxs.length := by
  induction idxs with
  | nil => rfl
  | cons i t ih => rw [sample_next_states_cons]; simp [ih]

theorem sample_next_states_getD (m : Replay) (idxs : List ℕ) (j : ℕ)
    (hj : j < idxs.length) :
    (m.sample_next_states idxs).getD j none =
      (if idxs.getD j 0 + 1 = m.size then m.latest_next_state
       else m.states.getD (idxs.getD j 0 + 1) none) := by
  induction idxs generalizing j with
  | nil => simp at hj
  | cons i t ih =>
    rw [sample_next_states_cons]
    cases j with
    | zero => simp
    | succ j =>
      simp only [List.getD_cons_succ]
      exact ih j (by simpa using hj)

/-- Characterization of a successful `sample` call. -/
theorem sample_ok (m : Replay) (draws : List ℕ) (b : Batch) (m' : Replay)
    (h : m.sample draws = Except.ok (b, m')) :
    ∃ idxs, m.sample_idxs m.batch_size draws = Except.ok idxs ∧
      b = { states := cond_multiget m.states idxs
            actions := cond_multiget m.actions idxs
            rewards := cond_multiget m.rewards idxs
            next_states := m.sample_next_states idxs
            dones := cond_multiget m.dones idxs } ∧
      m' = { m with batch_idxs := some idxs } := by
  unfold Replay.sample at h
  cases hs : m.sample_idxs m.batch_size draws with
  | error e => rw [hs] at h; cases h
  | ok idxs =>
    rw [hs] at h
    refine ⟨idxs, rfl, ?_, ?_⟩ <;> cases h <;> rfl

/-- Characterization of a successful `sample_idxs` call. -/
theorem sample_idxs_ok (m : Replay) (bs : ℕ) (draws : List ℕ) (idxs : List ℕ)
    (h : m.sample_idxs bs draws = Except.ok idxs) :
    0 < m.size ∧
    ((m.use_cer = false → idxs = (List.range bs).map (fun j => draws.getD j 0 % m.size)) ∧
     (m.use_cer = true → 0 < bs ∧
        idxs = ((List.range bs).map (fun j => draws.getD j 0 % m.size)).set
                 (bs - 1) m.head.toNat)) := by
  unfold Replay.sample_idxs npRandint at h
  by_cases hz : m.size = 0
  · simp [hz] at h
  · simp only [hz, if_false] at h
    refine ⟨Nat.pos_of_ne_zero hz, ?_, ?_⟩
    · intro hc; rw [hc] at h; simpa using h.symm
    · intro hc
      rw [hc] at h
      simp only [if_true, List.length_map, List.length_range] at h
      by_cases hb : bs = 0
      · simp [hb] at h
      · simp only [hb, if_false, Except.ok.injEq] at h
        exact ⟨Nat.pos_of_ne_zero hb,
          by simpa [List.getD_eq_getElem?_getD] using h.symm⟩

theorem insertAll_nil (m : Replay) : insertAll m [] = m := rfl

theorem insertAll_cons (m : Replay) (e : Experience) (t : List Experience) :
    insertAll m (e :: t) =
      insertAll (m.add_experience e.state e.action e.reward e.next_state e.done) t := rfl

theorem add_experience_max_size (m : Replay) (s a : ℚ) (r : RVal) (ns : ℚ) (d : Bool) :
    (m.add_experience s a r ns d).max_size = m.max_size := rfl

theorem insertAll_max_size (xs : List Experience) (m : Replay) :
    (insertAll m xs).max_size = m.max_size := by
  induction xs generalizing m with
  | nil => rfl
  | cons e t ih => rw [insertAll_cons, ih, add_experience_max_size]

theorem add_experience_size (m : Replay) (s a : ℚ) (r : RVal) (ns : ℚ) (d : Bool) :
    (m.add_experience s a r ns d).size =
      if m.size < m.max_size then m.size + 1 else m.size := rfl

theorem add_experience_seen_size (m : Replay) (s a : ℚ) (r : RVal) (ns : ℚ) (d : Bool) :
    (m.add_experience s a r ns d).seen_size = m.seen_size + 1 := rfl

theorem insertAll_size (xs : List Experience) (m : Replay) (h : m.size ≤ m.max_size) :
    (insertAll m xs).size = min (m.size + xs.length) m.max_size := by
  induction xs generalizing m with
  | nil => rw [insertAll_nil]; simp only [List.length_nil]; omega
  | cons e t ih =>
    rw [insertAll_cons,
      ih _ (by rw [add_experience_size, add_experience_max_size]; split <;> omega)]
    rw [add_experience_size, add_experience_max_size, List.length_cons]
    split <;> omega

theorem insertAll_head (xs : List Experience) (m : Replay) (h : xs ≠ []) :
    (insertAll m xs).head = (m.head + xs.length) % (m.max_size : ℤ) := by
  induction xs generalizing m with
  | nil => exact absurd rfl h
  | cons e t ih =>
    rw [insertAll_cons]
    by_cases ht : t = []
    · subst ht
      simp [insertAll_nil, Replay.add_experience]
    · rw [ih _ ht, add_experience_max_size]
      show ((m.head + 1) % (m.max_size : ℤ) + (t.length : ℤ)) % (m.max_size : ℤ) = _
      rw [Int.emod_add_emod]
      congr 1
      simp only [List.length_cons]
      push_cast
      ring

/-! ## Claims -/

/-- C1 (code_bug evidence): the claimed next-state reconstruction property
fails once the buffer has wrapped.  In `mem4` (`max_size = 3`, four inserts
of states `0,1,2,3` with next-state arguments `10,11,12,13`) the buffer is
full with `head = 0`.  Sampling index 0 — the current head — must, per the
claim, yield `latest_next_state` (`float16 13`), but `_sample_next_states`
returns the stale state stored at slot 1 (`float16 1`); and sampling index
2 — which is not the head — must yield the state at slot `(2+1) mod 3 = 0`
(`float16 3`), but the code returns `latest_next_state` (`float16 13`),
because its guard compares `i + 1` with `size`, which identifies the head
only while `head = size - 1`. -/
theorem c1_next_state_claim_fails_after_wrap :
    mem4.size = 3 ∧ mem4.head = 0 ∧
    mem4.latest_next_state = some (Float16.fin 13) ∧
    mem4.sample_next_states [0] = [some (Float16.fin 1)] ∧
    mem4.sample_next_states [0] ≠ [mem4.latest_next_state] ∧
    mem4.sample_next_states [2] = [some (Float16.fin 13)] ∧
    mem4.states.getD ((2 + 1) % mem4.max_size) none = some (Float16.fin 3) ∧
    mem4.sample_next_states [2] ≠
      [mem4.states.getD ((2 + 1) % mem4.max_size) none] := by
  decide

/-- C2: in `sample`, next-state reconstruction resolves every chosen index
whose successor position equals `size` to `latest_next_state`, and every
other chosen index by direct lookup of the states array at `i + 1`; the
stored `states`/`actions`/`rewards`/`dones` arrays are not mutated by the
call (only `batch_idxs` is written). -/
theorem c2_next_state_resolution (m : Replay) (idxs : List ℕ) (j : ℕ)
    (hj : j < idxs.length) :
    ((m.sample_next_states idxs).length = idxs.length ∧
     (m.sample_next_states idxs).getD j none =
       (if idxs.getD j 0 + 1 = m.size then m.latest_next_state
        else m.states.getD (idxs.getD j 0 + 1) none)) ∧
    (∀ draws b m', m.sample draws = Except.ok (b, m') →
      (∃ bidxs, m'.batch_idxs = some bidxs ∧
        b.next_states = m.sample_next_states bidxs) ∧
      m'.states = m.states ∧ m'.actions = m.actions ∧
      m'.rewards = m.rewards ∧ m'.dones = m.dones) := by
  refine ⟨⟨sample_next_states_length m idxs, sample_next_states_getD m idxs j hj⟩, ?_⟩
  intro draws b m' h
  obtain ⟨bidxs, -, hb, hm⟩ := sample_ok m draws b m' h
  subst hb; subst hm
  exact ⟨⟨bidxs, rfl, rfl⟩, rfl, rfl, rfl, rfl⟩

/-- C2 witness: concrete instance on the wrapped buffer `mem4`, chosen
indices `[0, 2]`, position 0. -/
theorem c2_next_state_resolution_witness :
    (mem4.sample_next_states [0, 2]).getD 0 none = mem4.states.getD 1 none :=
  (((c2_next_state_resolution mem4 [0, 2] 0 (by decide)).1).2).trans (by decide)

/-- C3: capacity invariant and FIFO circularity.  For every sequence of
inserts from a fresh memory, `size = min inserts max_size` (so
`0 ≤ size ≤ max_size` always, growing by one per insert until capacity and
then fixed); `head` advances as `(head + 1) mod max_size` on every insert;
and the concrete scenario: with `max_size = 3`, four inserts leave
`head = 0`, `size = 3`, the states array holding the casts of
`[s3, s1, s2]` at positions `[0, 1, 2]` (the oldest entry overwritten), and
`latest_next_state` equal to the cast of the fourth insert's `next_state`. -/
theorem c3_capacity_fifo (N B : ℕ) (cer : Bool) (xs : List Experience)
    (hN : 0 < N) :
    (insertAll (mkReplay N B cer) xs).size = min xs.length N ∧
    (insertAll (mkReplay N B cer) xs).size ≤ N ∧
    (insertAll (mkReplay N B cer) xs).head =
      (if xs.length = 0 then -1 else ((xs.length : ℤ) - 1) % (N : ℤ)) ∧
    (∀ (m : Replay) (e : Experience),
        (m.add_experience e.state e.action e.reward e.next_state e.done).head =
          (m.head + 1) % (m.max_size : ℤ) ∧
        (m.add_experience e.state e.action e.reward e.next_state e.done).size =
          (if m.size < m.max_size then m.size + 1 else m.size)) ∧
    (∀ e0 e1 e2 e3 : Experience,
        (insertAll (mkReplay 3 B cer) [e0, e1, e2, e3]).head = 0 ∧
        (insertAll (mkReplay 3 B cer) [e0, e1, e2, e3]).size = 3 ∧
        (insertAll (mkReplay 3 B cer) [e0, e1, e2, e3]).states =
          [some (astypeFloat16 e3.state), some (astypeFloat16 e1.state),
           some (astypeFloat16 e2.state)] ∧
        (insertAll (mkReplay 3 B cer) [e0, e1, e2, e3]).latest_next_state =
          some (astypeFloat16 e3.next_state)) := by
  have hsize : (insertAll (mkReplay N B cer) xs).size = min xs.length N := by
    have := insertAll_size xs (mkReplay N B cer) (by simp [mkReplay, Replay.reset])
    simpa [mkReplay, Replay.reset] using this
  refine ⟨hsize, by omega, ?_, ?_, ?_⟩
  · by_cases hx : xs = []
    · subst hx; simp [insertAll_nil, mkReplay, Replay.reset]
    · rw [insertAll_head xs _ hx]
      have hlen : xs.length ≠ 0 := by simpa using hx
      simp only [hlen, if_false]
      show (((mkReplay N B cer).head + (xs.length : ℤ)) % ((mkReplay N B cer).max_size : ℤ)) = _
      have h1 : (mkReplay N B cer).head = -1 := rfl
      have h2 : (mkReplay N B cer).max_size = N := rfl
      rw [h1, h2]
      congr 1
  · exact fun m e => ⟨rfl, rfl⟩
  · intro e0 e1 e2 e3
    refine ⟨?_, ?_, ?_, ?_⟩ <;>
      simp [insertAll, mkReplay, Replay.reset, Replay.add_experience,
        List.replicate]

/-- C3 witness: the general statement applied to the concrete four-insert
scenario with `max_size = 3`. -/
theorem c3_capacity_fifo_witness :
    (insertAll (mkReplay 3 2 false) exps4).size = min exps4.length 3 :=
  (c3_capacity_fifo 3 2 false exps4 (by decide)).1

/-- C4: when CER is enabled, every successful `sample` call returns a batch
whose last position holds the transition at the current head: the last of
the `batch_size` drawn indices is overwritten with `head`, for any outcome
of the random draws. -/
theorem c4_cer_includes_head (m : Replay) (draws : List ℕ) (b : Batch)
    (m' : Replay) (hcer : m.use_cer = true)
    (h : m.sample draws = Except.ok (b, m')) :
    ∃ idxs, m'.batch_idxs = some idxs ∧ idxs.length = m.batch_size ∧
      idxs.getD (m.batch_size - 1) 0 = m.head.toNat ∧
      b.states.getD (m.batch_size - 1) none = m.states.getD m.head.toNat none ∧
      b.actions.getD (m.batch_size - 1) none = m.actions.getD m.head.toNat none ∧
      b.rewards.getD (m.batch_size - 1) none = m.rewards.getD m.head.toNat none ∧
      b.dones.getD (m.batch_size - 1) none = m.dones.getD m.head.toNat none := by
  obtain ⟨idxs, hs, hb, hm⟩ := sample_ok m draws b m' h
  obtain ⟨-, -, hc⟩ := sample_idxs_ok m m.batch_size draws idxs hs
  obtain ⟨hbs, hidxs⟩ := hc hcer
  have hlen : idxs.length = m.batch_size := by
    rw [hidxs]; simp
  have hk : m.batch_size - 1 < idxs.length := by omega
  have hget : idxs.getD (m.batch_size - 1) 0 = m.head.toNat := by
    rw [hidxs, List.getD_eq_getElem?_getD,
      List.getElem?_set_self (by simp; omega)]
    rfl
  subst hb; subst hm
  refine ⟨idxs, rfl, hlen, hget, ?_, ?_, ?_, ?_⟩ <;>
    rw [cond_multiget_getD _ idxs _ hk, hget]

/-- C4 witness: concrete CER-enabled buffer `memc`; the drawn indices
`[2, 1]` become `[2, 0]` and position 1 returns the head transition. -/
theorem c4_cer_includes_head_witness :
    ∃ idxs : List ℕ, memc'.batch_idxs = some idxs ∧
      idxs.getD (memc.batch_size - 1) 0 = memc.head.toNat := by
  obtain ⟨idxs, h1, -, h3, -⟩ :=
    c4_cer_includes_head memc [5, 1] batchc memc' rfl (by decide)
  exact ⟨idxs, h1, h3⟩

/-- C5: `update` dispatch.  In a non-vectorized environment a NaN reward
signals episode start: the call reduces to `epi_reset next_state` (the
sliding window is reset with `next_state` as first observation) and no
transition is inserted — `size`, `head`, `seen_size` and every storage
slot are unchanged.  In every other case — in particular whenever the
environment is vectorized, regardless of the reward — the call preprocesses
`state` and `next_state` and inserts exactly one transition. -/
theorem c5_update_branches (m : Replay) (is_venv : Bool) (s a : ℚ) (r : RVal)
    (ns : ℚ) (d : Bool) :
    (is_venv = false → r.isnan = true →
      m.update is_venv s a r ns d = m.epi_reset ns ∧
      (m.update is_venv s a r ns d).size = m.size ∧
      (m.update is_venv s a r ns d).head = m.head ∧
      (m.update is_venv s a r ns d).seen_size = m.seen_size ∧
      (m.update is_venv s a r ns d).states = m.states ∧
      (m.update is_venv s a r ns d).actions = m.actions ∧
      (m.update is_venv s a r ns d).rewards = m.rewards ∧
      (m.update is_venv s a r ns d).dones = m.dones ∧
      (m.update is_venv s a r ns d).latest_next_state = m.latest_next_state) ∧
    ((is_venv = true ∨ r.isnan = false) →
      m.update is_venv s a r ns d =
        m.add_experience (m.preprocess_state s) a r (m.preprocess_state ns) d ∧
      (m.update is_venv s a r ns d).seen_size = m.seen_size + 1) := by
  constructor
  · intro hv hn
    subst hv
    have hueq : m.update false s a r ns d = m.epi_reset ns := by
      simp [Replay.update, hn]
    rw [hueq]
    exact ⟨rfl, rfl, rfl, rfl, rfl, rfl, rfl, rfl, rfl⟩
  · intro hcase
    have hcond : (!is_venv && r.isnan) = false := by
      rcases hcase with hv | hn
      · subst hv; simp
      · simp [hn]
    simp only [Replay.update, hcond, if_false]
    exact ⟨rfl, rfl⟩

/-- C5 witness: NaN reward in a non-vectorized environment reduces to an
episode reset of the window on the concrete buffer `mem4`. -/
theorem c5_update_branches_witness :
    mem4.update false 0 0 RVal.nan 5 false = mem4.epi_reset 5 :=
  ((c5_update_branches mem4 false 0 0 RVal.nan 5 false).1 rfl rfl).1

/-- C6: `reset` writes the `None` sentinel into every slot of all five
storage lists, clears `latest_next_state`, zeroes `size`, sets `head` to
`-1`, and leaves `seen_size` unchanged; `seen_size` never decreases under
any operation and increases by exactly one on every `add_experience`
(including inserts after `size` has reached `max_size`). -/
theorem c6_reset_frame_seen_size (m : Replay) :
    m.reset.states = List.replicate m.max_size none ∧
    m.reset.actions = List.replicate m.max_size none ∧
    m.reset.rewards = List.replicate m.max_size none ∧
    m.reset.next_states = List.replicate m.max_size none ∧
    m.reset.dones = List.replicate m.max_size none ∧
    m.reset.latest_next_state = none ∧
    m.reset.size = 0 ∧
    m.reset.head = -1 ∧
    m.reset.seen_size = m.seen_size ∧
    (∀ (s a : ℚ) (r : RVal) (ns : ℚ) (d : Bool),
       (m.add_experience s a r ns d).seen_size = m.seen_size + 1) ∧
    (∀ s : ℚ, (m.epi_reset s).seen_size = m.seen_size) ∧
    (∀ (v : Bool) (s a : ℚ) (r : RVal) (ns : ℚ) (d : Bool),
       m.seen_size ≤ (m.update v s a r ns d).seen_size) ∧
    (∀ draws b m', m.sample draws = Except.ok (b, m') →
       m'.seen_size = m.seen_size) := by
  refine ⟨rfl, rfl, rfl, rfl, rfl, rfl, rfl, rfl, rfl, fun s a r ns d => rfl,
    fun s => rfl, ?_, ?_⟩
  · intro v s a r ns d
    unfold Replay.update
    by_cases hc : (!v && r.isnan) = true
    · simp [hc, Replay.epi_reset]
    · simp only [Bool.not_eq_true] at hc
      simp [hc, add_experience_seen_size]
  · intro draws b m' h
    obtain ⟨idxs, -, -, hm⟩ := sample_ok m draws b m' h
    subst hm
    rfl

/-- C6 witness: a concrete successful sample call leaves `seen_size`
unchanged. -/
theorem c6_reset_frame_seen_size_witness :
    mem4'.seen_size = mem4.seen_size :=
  (c6_reset_frame_seen_size mem4).2.2.2.2.2.2.2.2.2.2.2.2 [5, 1] batch4 mem4'
    (by decide)

/-- C7: `sample` is non-destructive — a successful call leaves `size`,
`head`, `seen_size`, `latest_next_state` and every stored slot of all five
storage lists unchanged; the memory after the call differs at most in the
record of the drawn indices (`batch_idxs`).  Because this holds for every
buffer state, it holds for repeated calls as well. -/
theorem c7_sample_nondestructive (m : Replay) (draws : List ℕ) (b : Batch)
    (m' : Replay) (h : m.sample draws = Except.ok (b, m')) :
    m'.size = m.size ∧ m'.head = m.head ∧ m'.seen_size = m.seen_size ∧
    m'.latest_next_state = m.latest_next_state ∧
    m'.states = m.states ∧ m'.actions = m.actions ∧ m'.rewards = m.rewards ∧
    m'.dones = m.dones ∧ m'.next_states = m.next_states ∧
    m'.max_size = m.max_size ∧ m'.batch_size = m.batch_size ∧
    m'.use_cer = m.use_cer ∧ m'.state_buffer = m.state_buffer ∧
    m' = { m with batch_idxs := m'.batch_idxs } := by
  obtain ⟨idxs, -, -, hm⟩ := sample_ok m draws b m' h
  subst hm
  exact ⟨rfl, rfl, rfl, rfl, rfl, rfl, rfl, rfl, rfl, rfl, rfl, rfl, rfl, rfl⟩

/-- C7 witness: the concrete sample call `mem4.sample [5, 1]` leaves the
stored states untouched. -/
theorem c7_sample_nondestructive_witness : mem4'.states = mem4.states :=
  (c7_sample_nondestructive mem4 [5, 1] batch4 mem4' (by decide)).2.2.2.2.1

/-- C8: sampling from an empty buffer is a fatal precondition violation —
`np.random.randint(0, ...)` raises and the error propagates out of
`sample` — and on a non-empty buffer every drawn index lies in
`[0, size)` (each draw is uniform over that range, with replacement, in the
oracle model of `npRandint`). -/
theorem c8_sample_size_guard (m : Replay) (draws : List ℕ) :
    (m.size = 0 → m.sample draws = Except.error "ValueError: low >= high") ∧
    (∀ idxs, npRandint m.size m.batch_size draws = Except.ok idxs →
       0 < m.size ∧ idxs.length = m.batch_size ∧ ∀ i ∈ idxs, i < m.size) ∧
    (m.use_cer = false →
       ∀ idxs, m.sample_idxs m.batch_size draws = Except.ok idxs →
         ∀ i ∈ idxs, i < m.size) := by
  refine ⟨?_, ?_, ?_⟩
  · intro h0
    unfold Replay.sample Replay.sample_idxs npRandint
    simp [h0]
  · intro idxs h
    unfold npRandint at h
    by_cases h0 : m.size = 0
    · simp [h0] at h
    · simp only [h0, if_false, Except.ok.injEq] at h
      subst h
      refine ⟨Nat.pos_of_ne_zero h0, by simp, ?_⟩
      intro i hi
      simp only [List.mem_map, List.mem_range] at hi
      obtain ⟨j, -, rfl⟩ := hi
      exact Nat.mod_lt _ (Nat.pos_of_ne_zero h0)
  · intro hc idxs h
    obtain ⟨hpos, hnc, -⟩ := sample_idxs_ok m m.batch_size draws idxs h
    rw [hnc hc]
    intro i hi
    simp only [List.mem_map, List.mem_range] at hi
    obtain ⟨j, -, rfl⟩ := hi
    exact Nat.mod_lt _ hpos

/-- C8 witness: the empty memory `mem0` fails fatally on `sample`. -/
theorem c8_sample_size_guard_witness :
    mem0.sample [] = Except.error "ValueError: low >= high" :=
  (c8_sample_size_guard mem0 []).1 rfl

/-- C9: the Atari variant stores every inserted reward as its sign
(`+1`/`0`/`-1`, and NaN maps to NaN): its `add_experience` is the plain
`add_experience` with `np.sign(reward)`, so the new head slot receives the
clipped value while every other slot — in particular every transition
already stored — is unchanged by the insert. -/
theorem c9_atari_reward_clip (m : Replay) (s a : ℚ) (r : RVal) (ns : ℚ)
    (d : Bool) :
    atari_add_experience m s a r ns d = m.add_experience s a (npSign r) ns d ∧
    (atari_add_experience m s a r ns d).rewards =
      m.rewards.set ((m.head + 1) % (m.max_size : ℤ)).toNat (some (npSign r)) ∧
    npSign (RVal.num 5) = RVal.num 1 ∧
    npSign (RVal.num (-3)) = RVal.num (-1) ∧
    npSign (RVal.num 0) = RVal.num 0 ∧
    (∀ j : ℕ, j ≠ ((m.head + 1) % (m.max_size : ℤ)).toNat →
       (atari_add_experience m s a r ns d).rewards.getD j none =
         m.rewards.getD j none) := by
  refine ⟨rfl, rfl, by decide, by decide, by decide, ?_⟩
  intro j hj
  show (m.rewards.set ((m.head + 1) % (m.max_size : ℤ)).toNat
      (some (npSign r))).getD j none = m.rewards.getD j none
  rw [List.getD_eq_getElem?_getD, List.getElem?_set_ne (Ne.symm hj),
    ← List.getD_eq_getElem?_getD]

/-- C9 witness: inserting reward `5` into `mem4` (new head slot 1) leaves
slot 2 unchanged. -/
theorem c9_atari_reward_clip_witness :
    (atari_add_experience mem4 0 0 (RVal.num 5) 0 false).rewards.getD 2 none =
      mem4.rewards.getD 2 none :=
  (c9_atari_reward_clip mem4 0 0 (RVal.num 5) 0 false).2.2.2.2.2 2 (by decide)

/-- C10: `add_experience` unconditionally downcasts `state` and
`next_state` through the 16-bit float model before storing them (the new
head slot and `latest_next_state`), while `action`, `reward` and `done` are
stored without a cast; hence a gathered state equals the inserted one only
up to binary16 rounding (which is genuinely lossy: `1/3` is not a binary16
value), whereas gathered actions, rewards and dones are exactly the
inserted values. -/
theorem c10_float16_cast (m : Replay) (s a : ℚ) (r : RVal) (ns : ℚ)
    (d : Bool) :
    (m.add_experience s a r ns d).states =
      m.states.set ((m.head + 1) % (m.max_size : ℤ)).toNat
        (some (astypeFloat16 s)) ∧
    (m.add_experience s a r ns d).latest_next_state =
      some (astypeFloat16 ns) ∧
    (m.add_experience s a r ns d).actions =
      m.actions.set ((m.head + 1) % (m.max_size : ℤ)).toNat (some a) ∧
    (m.add_experience s a r ns d).rewards =
      m.rewards.set ((m.head + 1) % (m.max_size : ℤ)).toNat (some r) ∧
    (m.add_experience s a r ns d).dones =
      m.dones.set ((m.head + 1) % (m.max_size : ℤ)).toNat (some d) ∧
    astypeFloat16 (mkRat 1 3) ≠ Float16.fin (mkRat 1 3) ∧
    (((m.head + 1) % (m.max_size : ℤ)).toNat < m.states.length →
      (m.add_experience s a r ns d).states.getD
        ((m.head + 1) % (m.max_size : ℤ)).toNat none =
          some (astypeFloat16 s)) ∧
    (((m.head + 1) % (m.max_size : ℤ)).toNat < m.actions.length →
      (m.add_experience s a r ns d).actions.getD
        ((m.head + 1) % (m.max_size : ℤ)).toNat none = some a) ∧
    (((m.head + 1) % (m.max_size : ℤ)).toNat < m.rewards.length →
      (m.add_experience s a r ns d).rewards.getD
        ((m.head + 1) % (m.max_size : ℤ)).toNat none = some r) ∧
    (((m.head + 1) % (m.max_size : ℤ)).toNat < m.dones.length →
      (m.add_experience s a r ns d).dones.getD
        ((m.head + 1) % (m.max_size : ℤ)).toNat none = some d) ∧
    (∀ (idxs : List ℕ) (j : ℕ), j < idxs.length →
      (cond_multiget (m.add_experience s a r ns d).states idxs).getD j none =
        (m.add_experience s a r ns d).states.getD (idxs.getD j 0) none) := by
  refine ⟨rfl, rfl, rfl, rfl, rfl, by decide, ?_, ?_, ?_, ?_, ?_⟩
  · intro hlt
    show (m.states.set ((m.head + 1) % (m.max_size : ℤ)).toNat
        (some (astypeFloat16 s))).getD _ none = _
    rw [List.getD_eq_getElem?_getD, List.getElem?_set_self (by simpa using hlt)]
    rfl
  · intro hlt
    show (m.actions.set ((m.head + 1) % (m.max_size : ℤ)).toNat
        (some a)).getD _ none = _
    rw [List.getD_eq_getElem?_getD, List.getElem?_set_self (by simpa using hlt)]
    rfl
  · intro hlt
    show (m.rewards.set ((m.head + 1) % (m.max_size : ℤ)).toNat
        (some r)).getD _ none = _
    rw [List.getD_eq_getElem?_getD, List.getElem?_set_self (by simpa using hlt)]
    rfl
  · intro hlt
    show (m.dones.set ((m.head + 1) % (m.max_size : ℤ)).toNat
        (some d)).getD _ none = _
    rw [List.getD_eq_getElem?_getD, List.getElem?_set_self (by simpa using hlt)]
    rfl
  · intro idxs j hj
    exact cond_multiget_getD _ idxs j hj

/-- C10 witness: inserting state `1/3` into `mem4` stores its binary16
rounding in `latest_next_state`, and the inserted action is stored
exactly. -/
theorem c10_float16_cast_witness :
    (mem4.add_experience (mkRat 1 3) 7 (RVal.num 7) (mkRat 1 3)
        true).latest_next_state = some (astypeFloat16 (mkRat 1 3)) :=
  (c10_float16_cast mem4 (mkRat 1 3) 7 (RVal.num 7) (mkRat 1 3) true).2.1
